import Mathlib

/-!
Shallow embedding of the cogito put (notification) pipeline: build-state
model, configuration validation, redacted printing, sink dispatch and error
aggregation, input-directory resolution, JSON round-trip, and the ordered-set
utility. The sets package is embedded from its source; the cogito package
implementation is not in the sources (only its tests are), so those
components are modelled from the spec, pinned to the exact strings the tests
in the sources assert.
-/

namespace Cogito

/-- The closed build-state enumeration: pending | success | failure | error. -/
inductive BuildState where
  | pending
  | success
  | failure
  | error
deriving DecidableEq, Repr

/-- The wire string of a build state. -/
def buildStateString : BuildState → String
  | .pending => "pending"
  | .success => "success"
  | .failure => "failure"
  | .error => "error"

/-- Modelled from the spec: BuildState parsing (BuildState.UnmarshalJSON's
string-level check, not in the sources): case-sensitive exact match against
the four literals; any other value fails with "invalid build state: value". -/
def parseBuildState (s : String) : Except String BuildState :=
  if s = "pending" then .ok .pending
  else if s = "success" then .ok .success
  else if s = "failure" then .ok .failure
  else if s = "error" then .ok .error
  else .error ("invalid build state: " ++ s)

/-- The Source configuration record; defaults are Go zero values. -/
structure Source where
  owner : String := ""
  repo : String := ""
  accessToken : String := ""
  gchatWebhook : String := ""
  logLevel : String := ""
  contextPfx : String := ""
  chatAppendSummary : Bool := false
  chatNotifyOnStates : List BuildState := []
deriving DecidableEq, Repr

/-- The PutParams record; defaults are Go zero values (state is mandatory). -/
structure PutParams where
  state : BuildState := .error
  context : String := ""
  chatMessage : String := ""
  chatMessageFile : String := ""
  chatAppendSummary : Bool := false
  gchatWebhook : String := ""
deriving DecidableEq, Repr

/-- A put request: Source plus PutParams. -/
structure PutRequest where
  source : Source := {}
  params : PutParams := {}
deriving DecidableEq, Repr

/-- The keys among owner, repo, access_token whose Source field is empty,
in the fixed declaration order. -/
def missingKeys (s : Source) : List String :=
  (([("owner", s.owner), ("repo", s.repo),
     ("access_token", s.accessToken)]).filter (fun kv => kv.2 == "")).map
    Prod.fst

/-- Modelled from the spec: Source.Validate (not in the sources): mandatory
keys owner, repo, access_token; all missing keys reported in one error, in a
fixed deterministic order, exactly as the test asserts:
"source: missing keys: owner, repo, access_token". -/
def Source.validate (s : Source) : Option String :=
  if missingKeys s = [] then none
  else some ("source: missing keys: " ++ String.intercalate ", " (missingKeys s))

/-- n spaces. -/
def spaces (n : Nat) : String := String.mk (List.replicate n ' ')

/-- One line of the aligned key/value rendering: the label, a colon, padding
up to column width+1, then the value. -/
def row (width : Nat) (label value : String) : String :=
  label ++ ":" ++ spaces (width + 1 - (label.length + 1)) ++ value

/-- Modelled from the spec: the redaction of a secret field: non-empty
secrets render as the fixed marker, empty ones render as empty. -/
def redact (x : String) : String := if x = "" then "" else "***REDACTED***"

/-- true/false, as Go fmt prints a bool. -/
def boolString (b : Bool) : String := if b then "true" else "false"

/-- [a b c], as Go fmt prints a slice. -/
def fmtList (l : List String) : String :=
  "[" ++ String.intercalate " " l ++ "]"

/-- Modelled from the spec: the redacted String() form of Source (not in the
sources); layout pinned by the tests: one aligned row per field in
declaration order, secrets passed through redact. -/
def sourceString (s : Source) : String :=
  String.intercalate "\n"
    [row 22 "owner" s.owner,
     row 22 "repo" s.repo,
     row 22 "access_token" (redact s.accessToken),
     row 22 "gchat_webhook" (redact s.gchatWebhook),
     row 22 "log_level" s.logLevel,
     row 22 "context_prefix" s.contextPfx,
     row 22 "chat_append_summary" (boolString s.chatAppendSummary),
     row 22 "chat_notify_on_states" (fmtList (s.chatNotifyOnStates.map buildStateString))]

/-- Modelled from the spec: the redacted String() form of PutParams (not in
the sources); layout pinned by the tests. -/
def putParamsString (p : PutParams) : String :=
  String.intercalate "\n"
    [row 20 "state" (buildStateString p.state),
     row 20 "context" p.context,
     row 20 "chat_message" p.chatMessage,
     row 20 "chat_message_file" p.chatMessageFile,
     row 20 "chat_append_summary" (boolString p.chatAppendSummary),
     row 20 "gchat_webhook" (redact p.gchatWebhook)]

/-- Modelled from the spec: error aggregation of the sink dispatcher (not in
the sources): no error on the empty list, the single error itself on a
one-element list, and "multiple errors:" followed by one indented line per
message otherwise. -/
def multiError : List String → Option String
  | [] => none
  | [e] => some e
  | es => some ("multiple errors:" ++ String.join (es.map (fun m => "\n\t" ++ m)))

/-- A notification sink: an identifier and the outcome of its Send. -/
structure Sink where
  id : String
  sendErr : Option String := none
deriving DecidableEq, Repr

/-- Modelled from the spec: the dispatch loop (not in the sources): run every
sink's Send in order, recording the invocation trace and collecting the
errors; an earlier error never stops a later sink. -/
def runSinks : List Sink → List String × List String
  | [] => ([], [])
  | s :: rest =>
    let r := runSinks rest
    (s.id :: r.1,
     match s.sendErr with
     | some e => e :: r.2
     | none => r.2)

/-- The overall error of dispatching a list of sinks. -/
def sinkDispatchErr (sinks : List Sink) : Option String :=
  multiError (runSinks sinks).2

/-- The behaviour of a Putter as Put observes it (mirrors the mock in the
tests): outcomes of LoadConfiguration, ProcessInputDir, Sinks and Output. -/
structure Putter where
  loadConfigurationErr : Option String := none
  processInputDirErr : Option String := none
  sinks : List Sink := []
  outputErr : Option String := none
deriving DecidableEq, Repr

/-- Modelled from the spec: the Put pipeline (not in the sources):
LoadConfiguration, then ProcessInputDir (each failure is fatal and reached
before any sink runs), then the sink dispatch, then Output; every error is
wrapped with "put: ". Returns the trace of invoked sinks and the overall
error. -/
def put (p : Putter) : List String × Option String :=
  match p.loadConfigurationErr with
  | some e => ([], some ("put: " ++ e))
  | none =>
    match p.processInputDirErr with
    | some e => ([], some ("put: " ++ e))
    | none =>
      let r := runSinks p.sinks
      match multiError r.2 with
      | some e => (r.1, some ("put: " ++ e))
      | none =>
        match p.outputErr with
        | some e => (r.1, some ("put: " ++ e))
        | none => (r.1, none)

/-- The two production sink kinds. -/
inductive SinkKind where
  | gitHubCommitStatus
  | googleChat
deriving DecidableEq, Repr

/-- Modelled from the spec: ProdPutter.Sinks() (not in the sources): the
fixed registration order, GitHub commit-status sink first, Google Chat sink
second, as the test asserts. -/
def prodSinkKinds : List SinkKind :=
  [SinkKind.gitHubCommitStatus, SinkKind.googleChat]

/-- What an input directory looks like to the resolver: not a git repository,
a git repository whose config cannot be read (the message of that hard
error), or a git repository with a remote owner/name. -/
inductive GitStatus where
  | notGit
  | badConfig (msg : String)
  | repo (owner repo : String)
deriving DecidableEq, Repr

/-- One directory under the working root. -/
structure InputDir where
  name : String
  git : GitStatus
deriving DecidableEq, Repr

/-- The observed directory-name list, in the observed (sorted-on-disk) order. -/
def dirNames (dirs : List InputDir) : List String := dirs.map InputDir.name

/-- Does this directory hold a git repository whose remote matches owner/repo? -/
def isRepoMatch (owner repo : String) (d : InputDir) : Bool :=
  match d.git with
  | .repo o r => o == owner && r == repo
  | _ => false

/-- No directory is a git repository with an unreadable config. -/
def readableDirs (dirs : List InputDir) : Bool :=
  dirs.all (fun d =>
    match d.git with
    | .badConfig _ => false
    | _ => true)

/-- The names of the directories matching owner/repo, in observed order. -/
def matchNames (owner repo : String) (dirs : List InputDir) : List String :=
  (dirs.filter (isRepoMatch owner repo)).map InputDir.name

/-- Modelled from the spec: the candidate scan of the InputResolver (not in
the sources): non-git directories are excluded silently; a git directory
with an unreadable config is a hard error; matching directories are
collected in order. -/
def scanDirs (owner repo : String) : List InputDir → Except String (List String)
  | [] => .ok []
  | d :: rest =>
    match d.git with
    | .badConfig msg => .error ("parsing .git/config: " ++ msg)
    | .notGit => scanDirs owner repo rest
    | .repo o r =>
      match scanDirs owner repo rest with
      | .error e => .error e
      | .ok names => .ok (if o == owner && r == repo then d.name :: names else names)

/-- The zero-candidates resolution error, as the test asserts it. -/
def missingRepoMsg (dirs : List InputDir) (owner repo : String) : String :=
  "put:inputs: missing directory for GitHub repo: have: " ++ fmtList (dirNames dirs) ++
    ", GitHub: " ++ owner ++ "/" ++ repo

/-- The several-candidates resolution error, as the test asserts it. -/
def wantOnlyRepoMsg (dirs : List InputDir) (owner repo : String) : String :=
  "put:inputs: want only directory for GitHub repo: have: " ++ fmtList (dirNames dirs) ++
    ", GitHub: " ++ owner ++ "/" ++ repo

/-- Modelled from the spec: repository resolution (not in the sources): scan
the candidates, then require exactly one match; zero matches and several
matches fail with the messages the tests assert. -/
def resolveRepo (dirs : List InputDir) (owner repo : String) : Except String String :=
  match scanDirs owner repo dirs with
  | .error e => .error e
  | .ok [] => .error (missingRepoMsg dirs owner repo)
  | .ok [d] => .ok d
  | .ok (_ :: _ :: _) => .error (wantOnlyRepoMsg dirs owner repo)

/-- Split a character list at every path separator (strings.Split on "/"). -/
def splitSlashAux : List Char → List Char → List String
  | [], acc => [String.mk acc.reverse]
  | c :: cs, acc =>
    if c = '/' then String.mk acc.reverse :: splitSlashAux cs []
    else splitSlashAux cs (c :: acc)

/-- Split a string at every path separator. -/
def splitSlash (v : String) : List String := splitSlashAux v.data []

/-- Is the chat_message_file value of the shape dir/file: exactly one path
separator, non-empty on both sides? -/
def wellFormedMessageFile (v : String) : Bool :=
  let parts := splitSlash v
  parts.length == 2 && parts.all (fun p => p != "")

/-- The directory component of a chat_message_file value. -/
def msgDirOf (v : String) : String := (splitSlash v).headD ""

/-- The wrong-format error for chat_message_file, as the test asserts it. -/
def wrongFormatMsg (v : String) : String :=
  "chat_message_file: wrong format: have: " ++ v ++ ", want: path of the form: <dir>/<file>"

/-- The chat_message_file directory-not-found error; the test asserts that
the reported list is the full observed directory list. -/
def msgDirNotFoundMsg (dirs : List InputDir) (v : String) : String :=
  "put:inputs: directory for chat_message_file not found: have: " ++ fmtList (dirNames dirs) ++
    ", chat_message_file: " ++ v

/-- Modelled from the spec: the resolution part of ProcessInputDir (not in
the sources; git metadata reading is not modelled): first the
chat_message_file format check, then repository resolution, then the search
for the chat-message directory among the remaining directories. -/
def resolveInputs (dirs : List InputDir) (owner repo chatMessageFile : String) :
    Except String (String × Option String) :=
  if chatMessageFile != "" && !wellFormedMessageFile chatMessageFile then
    .error (wrongFormatMsg chatMessageFile)
  else
    match resolveRepo dirs owner repo with
    | .error e => .error e
    | .ok repoDir =>
      if chatMessageFile == "" then .ok (repoDir, none)
      else
        let remaining := (dirNames dirs).filter (fun n => n != repoDir)
        if remaining.contains (msgDirOf chatMessageFile) then
          .ok (repoDir, some chatMessageFile)
        else
          .error (msgDirNotFoundMsg dirs chatMessageFile)

/-- A small JSON value model: strings, booleans, arrays and objects (an
object is its field list, in order). -/
inductive Json where
  | str (s : String)
  | bool (b : Bool)
  | arr (items : List Json)
  | obj (fields : List (String × Json))

/-- Modelled from the spec: JSON encoding of Source, every field under its
snake_case key, in declaration order. -/
def encodeSource (s : Source) : Json :=
  .obj [("owner", .str s.owner),
        ("repo", .str s.repo),
        ("access_token", .str s.accessToken),
        ("gchat_webhook", .str s.gchatWebhook),
        ("log_level", .str s.logLevel),
        ("context_prefix", .str s.contextPfx),
        ("chat_append_summary", .bool s.chatAppendSummary),
        ("chat_notify_on_states",
          .arr (s.chatNotifyOnStates.map (fun b => .str (buildStateString b))))]

/-- Modelled from the spec: JSON encoding of PutParams. -/
def encodePutParams (p : PutParams) : Json :=
  .obj [("state", .str (buildStateString p.state)),
        ("context", .str p.context),
        ("chat_message", .str p.chatMessage),
        ("chat_message_file", .str p.chatMessageFile),
        ("chat_append_summary", .bool p.chatAppendSummary),
        ("gchat_webhook", .str p.gchatWebhook)]

/-- Modelled from the spec: JSON encoding of a PutRequest. -/
def encodePutRequest (r : PutRequest) : Json :=
  .obj [("source", encodeSource r.source), ("params", encodePutParams r.params)]

/-- The strict-decoder error for an unknown field, shaped as in the tests. -/
def unknownFieldMsg (k : String) : String :=
  "json: unknown field " ++ "\"" ++ k ++ "\""

/-- The decoder error for a value of the wrong JSON type. -/
def typeErrMsg (k : String) : String :=
  "json: cannot unmarshal value of field " ++ k

/-- Decode a list of build-state JSON strings, failing on the first bad one. -/
def decodeStateList : List Json → Except String (List BuildState)
  | [] => .ok []
  | .str s :: rest =>
    match parseBuildState s with
    | .error e => .error e
    | .ok b =>
      match decodeStateList rest with
      | .error e => .error e
      | .ok l => .ok (b :: l)
  | _ :: _ => .error (typeErrMsg "chat_notify_on_states")

/-- Decode an array of build-state strings. -/
def decodeStates : Json → Except String (List BuildState)
  | .arr items => decodeStateList items
  | _ => .error (typeErrMsg "chat_notify_on_states")

/-- One step of the strict Source decoder: set the field named by this key,
or fail on an unknown key or a wrong type. -/
def setSourceField (s : Source) (key : String) (v : Json) : Except String Source :=
  if key = "owner" then
    match v with
    | .str x => .ok { s with owner := x }
    | _ => .error (typeErrMsg key)
  else if key = "repo" then
    match v with
    | .str x => .ok { s with repo := x }
    | _ => .error (typeErrMsg key)
  else if key = "access_token" then
    match v with
    | .str x => .ok { s with accessToken := x }
    | _ => .error (typeErrMsg key)
  else if key = "gchat_webhook" then
    match v with
    | .str x => .ok { s with gchatWebhook := x }
    | _ => .error (typeErrMsg key)
  else if key = "log_level" then
    match v with
    | .str x => .ok { s with logLevel := x }
    | _ => .error (typeErrMsg key)
  else if key = "context_prefix" then
    match v with
    | .str x => .ok { s with contextPfx := x }
    | _ => .error (typeErrMsg key)
  else if key = "chat_append_summary" then
    match v with
    | .bool x => .ok { s with chatAppendSummary := x }
    | _ => .error (typeErrMsg key)
  else if key = "chat_notify_on_states" then
    (decodeStates v).map (fun l => { s with chatNotifyOnStates := l })
  else .error (unknownFieldMsg key)

/-- Fold the object fields of a Source over an accumulator, left to right. -/
def decodeSourceFields : Source → List (String × Json) → Except String Source
  | s, [] => .ok s
  | s, kv :: rest =>
    match setSourceField s kv.1 kv.2 with
    | .error e => .error e
    | .ok s2 => decodeSourceFields s2 rest

/-- Modelled from the spec: the strict Source decoder: fold the object's
fields over the zero value, rejecting unknown fields. -/
def decodeSource : Json → Except String Source
  | .obj fields => decodeSourceFields {} fields
  | _ => .error (typeErrMsg "source")

/-- One step of the strict PutParams decoder. -/
def setPutParamsField (p : PutParams) (key : String) (v : Json) :
    Except String PutParams :=
  if key = "state" then
    match v with
    | .str x => (parseBuildState x).map (fun b => { p with state := b })
    | _ => .error (typeErrMsg key)
  else if key = "context" then
    match v with
    | .str x => .ok { p with context := x }
    | _ => .error (typeErrMsg key)
  else if key = "chat_message" then
    match v with
    | .str x => .ok { p with chatMessage := x }
    | _ => .error (typeErrMsg key)
  else if key = "chat_message_file" then
    match v with
    | .str x => .ok { p with chatMessageFile := x }
    | _ => .error (typeErrMsg key)
  else if key = "chat_append_summary" then
    match v with
    | .bool x => .ok { p with chatAppendSummary := x }
    | _ => .error (typeErrMsg key)
  else if key = "gchat_webhook" then
    match v with
    | .str x => .ok { p with gchatWebhook := x }
    | _ => .error (typeErrMsg key)
  else .error (unknownFieldMsg key)

/-- Fold the object fields of a PutParams over an accumulator, left to right. -/
def decodePutParamsFields : PutParams → List (String × Json) → Except String PutParams
  | p, [] => .ok p
  | p, kv :: rest =>
    match setPutParamsField p kv.1 kv.2 with
    | .error e => .error e
    | .ok p2 => decodePutParamsFields p2 rest

/-- Modelled from the spec: the strict PutParams decoder. -/
def decodePutParams : Json → Except String PutParams
  | .obj fields => decodePutParamsFields {} fields
  | _ => .error (typeErrMsg "params")

/-- One step of the strict PutRequest decoder: only the keys source and
params are accepted. -/
def setPutRequestField (r : PutRequest) (key : String) (v : Json) :
    Except String PutRequest :=
  if key = "source" then
    match decodeSource v with
    | .error e => .error e
    | .ok s => .ok { r with source := s }
  else if key = "params" then
    match decodePutParams v with
    | .error e => .error e
    | .ok p => .ok { r with params := p }
  else .error (unknownFieldMsg key)

/-- Fold the object fields of a PutRequest over an accumulator. -/
def decodePutRequestFields : PutRequest → List (String × Json) → Except String PutRequest
  | r, [] => .ok r
  | r, kv :: rest =>
    match setPutRequestField r kv.1 kv.2 with
    | .error e => .error e
    | .ok r2 => decodePutRequestFields r2 rest

/-- Modelled from the spec: the strict PutRequest decoder: only the keys
source and params are accepted. -/
def decodePutRequest : Json → Except String PutRequest
  | .obj fields => decodePutRequestFields {} fields
  | _ => .error (typeErrMsg "request")

/-- Modelled from the spec: LoadConfiguration (not in the sources): strict
decode, Source validation, then the mandatory-input-directory argument
check; every error is wrapped as in the tests. -/
def loadConfiguration (j : Json) (args : List String) : Except String PutRequest :=
  match decodePutRequest j with
  | .error e => .error ("put: parsing request: " ++ e)
  | .ok r =>
    match Source.validate r.source with
    | some e => .error ("put: " ++ e)
    | none =>
      if args.isEmpty then .error "put: arguments: missing input directory"
      else .ok r

end Cogito

namespace Sets

/-- The sets package's Set, a Go map with struct-unit values: its key set. -/
def From {α : Type} [DecidableEq α] (elements : List α) : Finset α :=
  elements.toFinset

/-- New returns an empty set; the size argument is only a capacity hint. -/
def New (α : Type) [DecidableEq α] (_size : Nat) : Finset α := (∅ : Finset α)

/-- OrderedList returns a slice of the elements of s, ordered. -/
def OrderedList {α : Type} [LinearOrder α] (s : Finset α) : List α :=
  s.sort (· ≤ ·)

/-- String returns the fmt.Sprint form of the ordered element slice. -/
def SetString (s : Finset String) : String :=
  Cogito.fmtList (OrderedList s)

/-- Contains returns true if s contains item. -/
def Contains {α : Type} [DecidableEq α] (s : Finset α) (item : α) : Bool :=
  decide (item ∈ s)

/-- Remove deletes item from s; returns the new set and whether the item was
present. -/
def Remove {α : Type} [DecidableEq α] (s : Finset α) (item : α) : Finset α × Bool :=
  if item ∈ s then (s.erase item, true) else (s, false)

/-- Size returns the number of elements. -/
def Size {α : Type} (s : Finset α) : Nat := s.card

/-- Difference returns the elements of s that are not in x. -/
def Difference {α : Type} [DecidableEq α] (s x : Finset α) : Finset α := s \ x

/-- A mutation of a set: a map-key insertion (as in From) or a Remove. -/
inductive SetOp (α : Type) where
  | ins (a : α)
  | del (a : α)

/-- Apply one mutation. -/
def applyOp {α : Type} [DecidableEq α] (s : Finset α) : SetOp α → Finset α
  | .ins a => insert a s
  | .del a => (Remove s a).1

/-- Apply a sequence of insertions and removals. -/
def applyOps {α : Type} [DecidableEq α] (s : Finset α) (ops : List (SetOp α)) :
    Finset α :=
  ops.foldl applyOp s

end Sets

namespace Cogito

/-- The dispatch loop invokes exactly the given sinks, in order. -/
theorem runSinks_fst (sinks : List Sink) : (runSinks sinks).1 = sinks.map Sink.id := by
  induction sinks with
  | nil => rfl
  | cons s rest ih =>
    cases h : s.sendErr <;> simp [runSinks, h, ih]

/-- Claim C1 — sink-dispatch error aggregation: if the collected error list
is exactly [M1, M2] the overall error is exactly
"multiple errors:\n\tM1\n\tM2"; a single collected error is reported as the
plain single-line message itself; an empty collected list means success. -/
theorem sinkDispatch_error_aggregation (sinks : List Sink) (m1 m2 : String) :
    ((runSinks sinks).2 = [m1, m2] →
      sinkDispatchErr sinks = some ("multiple errors:\n\t" ++ m1 ++ "\n\t" ++ m2)) ∧
    ((runSinks sinks).2 = [m1] → sinkDispatchErr sinks = some m1) ∧
    ((runSinks sinks).2 = [] → sinkDispatchErr sinks = none) := by
  refine ⟨fun h => ?_, fun h => ?_, fun h => ?_⟩ <;>
    simp only [sinkDispatchErr, h, multiError]
  simp only [List.map_cons, List.map_nil, String.join, List.foldl_cons, List.foldl_nil,
    String.empty_append, String.append_assoc, Option.some.injEq]
  rfl

/-- Claim C1 witness: two sinks failing with the mock messages of the test
produce exactly the aggregated message the test asserts. -/
theorem sinkDispatch_error_aggregation_witness :
    sinkDispatchErr [{ id := "github", sendErr := some "mock: send error 1" },
                     { id := "gchat", sendErr := some "mock: send error 2" }] =
      some "multiple errors:\n\tmock: send error 1\n\tmock: send error 2" :=
  (sinkDispatch_error_aggregation
    [{ id := "github", sendErr := some "mock: send error 1" },
     { id := "gchat", sendErr := some "mock: send error 2" }]
    "mock: send error 1" "mock: send error 2").1 (by decide)

/-- Claim C2 — put pipeline: a LoadConfiguration or ProcessInputDir failure
aborts before any sink runs; otherwise every configured sink is invoked
exactly once, in order, regardless of sink failures; the production sink
list is GitHub commit-status first, Google Chat second. -/
theorem put_invokes_every_sink_in_order (p : Putter) :
    (∀ e, p.loadConfigurationErr = some e → put p = ([], some ("put: " ++ e))) ∧
    (∀ e, p.loadConfigurationErr = none → p.processInputDirErr = some e →
      put p = ([], some ("put: " ++ e))) ∧
    (p.loadConfigurationErr = none → p.processInputDirErr = none →
      (put p).1 = p.sinks.map Sink.id) ∧
    prodSinkKinds = [SinkKind.gitHubCommitStatus, SinkKind.googleChat] := by
  refine ⟨fun e he => ?_, fun e hl he => ?_, fun hl hp => ?_, rfl⟩
  · simp [put, he]
  · simp [put, hl, he]
  · cases hm : multiError (runSinks p.sinks).2 <;>
      cases ho : p.outputErr <;>
      simp [put, hl, hp, hm, ho, runSinks_fst]

/-- Claim C2 witness: a load-configuration failure yields the wrapped error
with no sink invoked. -/
theorem put_invokes_every_sink_in_order_witness :
    put { loadConfigurationErr := some "mock: load configuration",
          sinks := [{ id := "github", sendErr := none }] } =
      ([], some "put: mock: load configuration") :=
  (put_invokes_every_sink_in_order
    { loadConfigurationErr := some "mock: load configuration",
      sinks := [{ id := "github", sendErr := none }] }).1
    "mock: load configuration" rfl

end Cogito

namespace Cogito

/-- A Source whose access token happens to coincide with its owner name. -/
def leakSource : Source := { owner := "s3cret", accessToken := "s3cret" }

/-- Claim C3 counterexample: the claim says the printed form of a Source
never contains the literal access_token value; for a Source whose owner
field coincides with the access token, the printed form does contain the
literal token (via the owner row), so the universal claim is false. -/
theorem source_redaction_counterexample :
    leakSource.accessToken = "s3cret" ∧
    leakSource.accessToken.data <:+: (sourceString leakSource).data := by
  constructor
  · rfl
  · decide

/-- Redaction depends only on whether the secret is empty. -/
theorem redact_congr {a b : String} (h : a = "" ↔ b = "") : redact a = redact b := by
  by_cases hb : b = ""
  · simp [redact, hb, h.mpr hb]
  · have ha : ¬a = "" := fun x => hb (h.mp x)
    simp [redact, ha, hb]

/-- Claim C3 (amended) — the printed form of a Source or PutParams is
independent of the literal secret values (access_token, gchat_webhook)
except for whether they are empty: non-empty secrets render as the fixed
marker "***REDACTED***" and empty secrets render as empty, never as the
marker; hence the output carries no information about a secret beyond its
emptiness, and a secret can appear in it only by coinciding with non-secret
content. -/
theorem redaction_noninterference :
    (∀ x : String, x ≠ "" → redact x = "***REDACTED***") ∧
    redact "" = "" ∧
    (∀ (s : Source) (t w : String),
      (t = "" ↔ s.accessToken = "") → (w = "" ↔ s.gchatWebhook = "") →
      sourceString { s with accessToken := t, gchatWebhook := w } = sourceString s) ∧
    (∀ (p : PutParams) (w : String), (w = "" ↔ p.gchatWebhook = "") →
      putParamsString { p with gchatWebhook := w } = putParamsString p) := by
  refine ⟨fun x hx => ?_, rfl, fun s t w h1 h2 => ?_, fun p w h => ?_⟩
  · simp [redact, hx]
  · simp [sourceString, redact_congr h1, redact_congr h2]
  · simp [putParamsString, redact_congr h]

/-- Claim C3 witness: changing a non-empty access token and webhook to other
non-empty values leaves the printed Source unchanged. -/
theorem redaction_noninterference_witness :
    sourceString { owner := "the-owner", accessToken := "sensitive-the-access-token",
                   gchatWebhook := "sensitive-gchat-webhook" } =
      sourceString { owner := "the-owner", accessToken := "zzz", gchatWebhook := "qqq" } :=
  redaction_noninterference.2.2.1
    { owner := "the-owner", accessToken := "zzz", gchatWebhook := "qqq" }
    "sensitive-the-access-token" "sensitive-gchat-webhook" (by decide) (by decide)

end Cogito

namespace Cogito

/-- The fixed deterministic report position of a mandatory Source key. -/
def keyRank : String → Nat
  | "owner" => 0
  | "repo" => 1
  | _ => 2

/-- Claim C4 — Source validation: it succeeds exactly when owner, repo and
access_token are all present; otherwise the single error lists exactly the
missing keys, in the fixed deterministic order owner, repo, access_token. -/
theorem source_validation_spec (s : Source) :
    (Source.validate s = none ↔ s.owner ≠ "" ∧ s.repo ≠ "" ∧ s.accessToken ≠ "") ∧
    (∀ k, k ∈ missingKeys s ↔
      ((k = "owner" ∧ s.owner = "") ∨ (k = "repo" ∧ s.repo = "") ∨
       (k = "access_token" ∧ s.accessToken = ""))) ∧
    (missingKeys s).Pairwise (fun a b => keyRank a < keyRank b) ∧
    (missingKeys s ≠ [] →
      Source.validate s =
        some ("source: missing keys: " ++ String.intercalate ", " (missingKeys s))) := by
  by_cases ho : s.owner = "" <;> by_cases hr : s.repo = "" <;> by_cases ha : s.accessToken = "" <;>
    simp [Source.validate, missingKeys, keyRank, ho, hr, ha]

/-- Claim C4 witness: the all-empty Source fails with exactly the message
the test asserts, listing all three keys. -/
theorem source_validation_spec_witness :
    Source.validate {} = some "source: missing keys: owner, repo, access_token" :=
  (source_validation_spec {}).2.2.2 (by decide)

/-- Claim C5 — BuildState parsing: each of the four literals parses to its
state; parsing succeeds only on an exact rendering of a state; every other
string fails with exactly "invalid build state: value". -/
theorem buildState_parse_spec (s : String) :
    (∀ b : BuildState, parseBuildState (buildStateString b) = .ok b) ∧
    (s ≠ "pending" → s ≠ "success" → s ≠ "failure" → s ≠ "error" →
      parseBuildState s = .error ("invalid build state: " ++ s)) ∧
    (∀ b : BuildState, parseBuildState s = .ok b → s = buildStateString b) := by
  refine ⟨fun b => by cases b <;> rfl, fun h1 h2 h3 h4 => ?_, fun b h => ?_⟩
  · simp [parseBuildState, h1, h2, h3, h4]
  · unfold parseBuildState at h
    split_ifs at h with h1 h2 h3 h4 <;>
      simp only [Except.ok.injEq] at h <;>
      first
        | (subst h; simpa [buildStateString] using h1)
        | (subst h; simpa [buildStateString] using h2)
        | (subst h; simpa [buildStateString] using h3)
        | (subst h; simpa [buildStateString] using h4)

/-- Claim C5 witness: the test's "pizza" fails with exactly the message the
test asserts. -/
theorem buildState_parse_spec_witness :
    parseBuildState "pizza" = Except.error "invalid build state: pizza" :=
  (buildState_parse_spec "pizza").2.1 (by decide) (by decide) (by decide) (by decide)

end Cogito

namespace Cogito

/-- Scanning readable directories collects exactly the matching names, in
order. -/
theorem scanDirs_eq (owner repo : String) (dirs : List InputDir)
    (h : readableDirs dirs = true) :
    scanDirs owner repo dirs = .ok (matchNames owner repo dirs) := by
  induction dirs with
  | nil => rfl
  | cons d rest ih =>
    rw [readableDirs, List.all_cons, Bool.and_eq_true] at h
    obtain ⟨hd, hrest⟩ := h
    have ih2 := ih hrest
    cases hg : d.git with
    | notGit =>
      simp [scanDirs, hg, ih2, matchNames, List.filter_cons, isRepoMatch]
    | badConfig msg =>
      rw [hg] at hd
      simp at hd
    | repo o r =>
      by_cases hm : (o == owner && r == repo) = true
      · simp [scanDirs, hg, ih2, matchNames, List.filter_cons, isRepoMatch, hm]
      · simp only [Bool.not_eq_true] at hm
        simp [scanDirs, hg, ih2, matchNames, List.filter_cons, isRepoMatch, hm]

/-- A unique match resolves to that directory. -/
theorem resolveRepo_ok (dirs : List InputDir) (owner repo d : String)
    (hread : readableDirs dirs = true)
    (hmatch : matchNames owner repo dirs = [d]) :
    resolveRepo dirs owner repo = .ok d := by
  unfold resolveRepo
  rw [scanDirs_eq owner repo dirs hread, hmatch]

/-- A well-formed chat_message_file value is non-empty. -/
theorem wellFormed_ne_empty {v : String} (hwf : wellFormedMessageFile v = true) :
    v ≠ "" := by
  intro hv
  rw [hv] at hwf
  exact absurd hwf (by decide)

/-- Claim C6 — repository resolution over any readable input-directory set:
zero matching directories fail with the missing-directory error reporting
the full observed directory list and the target owner/repo; two or more
matches fail with the want-only error in the same reporting shape; and
resolution returns a directory exactly when exactly one directory matches. -/
theorem repo_resolution_spec (dirs : List InputDir) (owner repo : String)
    (h : readableDirs dirs = true) :
    (matchNames owner repo dirs = [] →
      resolveRepo dirs owner repo =
        .error ("put:inputs: missing directory for GitHub repo: have: " ++
          fmtList (dirNames dirs) ++ ", GitHub: " ++ owner ++ "/" ++ repo)) ∧
    (∀ d1 d2 rest, matchNames owner repo dirs = d1 :: d2 :: rest →
      resolveRepo dirs owner repo =
        .error ("put:inputs: want only directory for GitHub repo: have: " ++
          fmtList (dirNames dirs) ++ ", GitHub: " ++ owner ++ "/" ++ repo)) ∧
    (∀ d, matchNames owner repo dirs = [d] → resolveRepo dirs owner repo = .ok d) ∧
    (∀ d, resolveRepo dirs owner repo = .ok d → matchNames owner repo dirs = [d]) := by
  have hs := scanDirs_eq owner repo dirs h
  refine ⟨fun hm => ?_, fun d1 d2 rest hm => ?_,
    fun d hm => resolveRepo_ok dirs owner repo d h hm, fun d hok => ?_⟩
  · unfold resolveRepo
    rw [hs, hm]
    rfl
  · unfold resolveRepo
    rw [hs, hm]
    rfl
  · unfold resolveRepo at hok
    rw [hs] at hok
    rcases hm : matchNames owner repo dirs with _ | ⟨x, _ | ⟨y, rest⟩⟩ <;>
      rw [hm] at hok <;> simp_all

/-- Claim C6 witness: two matching directories fail with exactly the
want-only message the test asserts, listing both. -/
theorem repo_resolution_spec_witness :
    resolveRepo
      [{ name := "dir-1", git := .repo "dummy-owner" "dummy-repo" },
       { name := "dir-2", git := .repo "dummy-owner" "dummy-repo" }]
      "dummy-owner" "dummy-repo" =
      .error "put:inputs: want only directory for GitHub repo: have: [dir-1 dir-2], GitHub: dummy-owner/dummy-repo" :=
  (repo_resolution_spec
    [{ name := "dir-1", git := .repo "dummy-owner" "dummy-repo" },
     { name := "dir-2", git := .repo "dummy-owner" "dummy-repo" }]
    "dummy-owner" "dummy-repo" (by decide)).2.1 "dir-1" "dir-2" [] (by decide)

/-- Claim C7 — a non-empty chat_message_file that is not of the shape
dir/file fails with exactly the wrong-format error naming the received value
and the expected shape; the result is the same for every input-directory
set, so the failure precedes directory resolution. -/
theorem chat_message_file_format_precheck (dirs : List InputDir)
    (owner repo v : String) (hne : v ≠ "")
    (hbad : wellFormedMessageFile v = false) :
    resolveInputs dirs owner repo v =
      .error ("chat_message_file: wrong format: have: " ++ v ++
        ", want: path of the form: <dir>/<file>") := by
  simp [resolveInputs, hbad, hne, wrongFormatMsg]

/-- Claim C7 witness: the test's "msg.txt" (no slash) fails with exactly the
wrong-format message the test asserts, even though the directory set would
resolve. -/
theorem chat_message_file_format_precheck_witness :
    resolveInputs
      [{ name := "a-repo", git := .repo "dummy-owner" "dummy-repo" },
       { name := "msgdir", git := .notGit }]
      "dummy-owner" "dummy-repo" "msg.txt" =
      .error "chat_message_file: wrong format: have: msg.txt, want: path of the form: <dir>/<file>" :=
  chat_message_file_format_precheck
    [{ name := "a-repo", git := .repo "dummy-owner" "dummy-repo" },
     { name := "msgdir", git := .notGit }]
    "dummy-owner" "dummy-repo" "msg.txt" (by decide) (by decide)

/-- The repo-and-msgdir input-directory set of the test. -/
def repoAndMsgdir : List InputDir :=
  [{ name := "a-repo", git := .repo "dummy-owner" "dummy-repo" },
   { name := "msgdir", git := .notGit }]

/-- Claim C8 counterexample: on the test's input (directories a-repo and
msgdir, chat_message_file banana/msg.txt), the not-found error reports the
full input directory list [a-repo msgdir], including the resolved repository
directory a-repo, and not the remaining directory list [msgdir] that the
claim says is reported. -/
theorem chat_message_dir_report_counterexample :
    resolveInputs repoAndMsgdir "dummy-owner" "dummy-repo" "banana/msg.txt" =
      .error "put:inputs: directory for chat_message_file not found: have: [a-repo msgdir], chat_message_file: banana/msg.txt" ∧
    ("put:inputs: directory for chat_message_file not found: have: [a-repo msgdir], chat_message_file: banana/msg.txt" : String) ≠
      "put:inputs: directory for chat_message_file not found: have: [msgdir], chat_message_file: banana/msg.txt" := by
  constructor
  · rfl
  · decide

/-- Claim C8 (amended) — when chat_message_file is well formed and its
directory component does not name one of the remaining input directories
(excluding the resolved repository directory), resolution fails with the
directory-for-chat_message_file-not-found error reporting the full input
directory list (including the resolved repository directory) and the
requested chat_message_file value. -/
theorem chat_message_dir_not_found_spec (dirs : List InputDir)
    (owner repo v d : String)
    (hwf : wellFormedMessageFile v = true)
    (hread : readableDirs dirs = true)
    (hmatch : matchNames owner repo dirs = [d])
    (habsent : msgDirOf v ∉ (dirNames dirs).filter (fun n => n != d)) :
    resolveInputs dirs owner repo v =
      .error ("put:inputs: directory for chat_message_file not found: have: " ++
        fmtList (dirNames dirs) ++ ", chat_message_file: " ++ v) := by
  have hne := wellFormed_ne_empty hwf
  simp [resolveInputs, hwf, hne, resolveRepo_ok dirs owner repo d hread hmatch,
    msgDirNotFoundMsg]
  intro hmem
  by_contra hneq
  exact habsent (List.mem_filter.mpr ⟨hmem, by simp [hneq]⟩)

/-- Claim C8 witness: the amended statement at the test's input produces
exactly the message the test asserts. -/
theorem chat_message_dir_not_found_spec_witness :
    resolveInputs repoAndMsgdir "dummy-owner" "dummy-repo" "banana/msg.txt" =
      Except.error "put:inputs: directory for chat_message_file not found: have: [a-repo msgdir], chat_message_file: banana/msg.txt" :=
  chat_message_dir_not_found_spec repoAndMsgdir "dummy-owner" "dummy-repo"
    "banana/msg.txt" "a-repo" (by decide) (by decide) (by decide) (by decide)

end Cogito

namespace Cogito

/-- Rendering a build state parses back to the same state. -/
theorem parseBuildState_roundTrip (b : BuildState) :
    parseBuildState (buildStateString b) = .ok b := by
  cases b <;> rfl

/-- Encoding then decoding a build-state list round-trips. -/
theorem decodeStateList_roundTrip (l : List BuildState) :
    decodeStateList (l.map (fun b => .str (buildStateString b))) = .ok l := by
  induction l with
  | nil => rfl
  | cons b rest ih => simp [decodeStateList, parseBuildState_roundTrip, ih]

/-- Encoding then strictly decoding a Source round-trips. -/
theorem decodeSource_roundTrip (s : Source) :
    decodeSource (encodeSource s) = .ok s := by
  cases s with
  | mk o r a g lg c b ns =>
    simp [decodeSource, encodeSource, decodeSourceFields, setSourceField,
      decodeStates, decodeStateList_roundTrip, Except.map]

/-- Encoding then strictly decoding a PutParams round-trips. -/
theorem decodePutParams_roundTrip (p : PutParams) :
    decodePutParams (encodePutParams p) = .ok p := by
  cases p with
  | mk st c m f b w =>
    simp [decodePutParams, encodePutParams, decodePutParamsFields,
      setPutParamsField, parseBuildState_roundTrip, Except.map]

/-- Encoding then strictly decoding a PutRequest round-trips. -/
theorem decodePutRequest_roundTrip (r : PutRequest) :
    decodePutRequest (encodePutRequest r) = .ok r := by
  cases r with
  | mk s p =>
    simp [decodePutRequest, encodePutRequest, decodePutRequestFields,
      setPutRequestField, decodeSource_roundTrip, decodePutParams_roundTrip]

/-- Claim C9 — round trip: a validly constructed PutRequest (its Source
passes validation; its state is a BuildState by construction), serialized to
JSON and decoded back with the strict unknown-field-rejecting decoder,
yields a value equal to the original, and loading that configuration with at
least one input directory produces no validation error. -/
theorem putRequest_roundTrip (r : PutRequest) (args : List String)
    (hvalid : Source.validate r.source = none) (hargs : args ≠ []) :
    decodePutRequest (encodePutRequest r) = .ok r ∧
    loadConfiguration (encodePutRequest r) args = .ok r := by
  refine ⟨decodePutRequest_roundTrip r, ?_⟩
  cases args with
  | nil => exact absurd rfl hargs
  | cons a rest =>
    simp [loadConfiguration, decodePutRequest_roundTrip r, hvalid, List.isEmpty]

/-- The base put request of the tests. -/
def basePutRequest : PutRequest :=
  { source := { owner := "the-owner", repo := "the-repo", accessToken := "the-token" },
    params := { state := .error } }

/-- Claim C9 witness: the tests' base request round-trips through load with
the test's single input-directory argument. -/
theorem putRequest_roundTrip_witness :
    loadConfiguration (encodePutRequest basePutRequest) ["dummy-dir"] =
      Except.ok basePutRequest :=
  (putRequest_roundTrip basePutRequest ["dummy-dir"] (by decide) (by decide)).2

end Cogito

namespace Sets

/-- Claim C10 — for a set built with From or New and mutated by any sequence
of insertions and removals, OrderedList is strictly ascending and contains
exactly the set's current elements (each exactly once, by strict ascent and
Nodup), and String is the formatted string of that ordered slice; the
rendering is therefore a deterministic function of the set's contents. -/
theorem ordered_set_rendering {α : Type} [LinearOrder α] (elems : List α)
    (n : Nat) (ops : List (SetOp α)) :
    ((OrderedList (applyOps (From elems) ops)).Sorted (· < ·) ∧
     (OrderedList (applyOps (From elems) ops)).Nodup ∧
     (∀ a, a ∈ OrderedList (applyOps (From elems) ops) ↔
        a ∈ applyOps (From elems) ops)) ∧
    ((OrderedList (applyOps (New α n) ops)).Sorted (· < ·) ∧
     (OrderedList (applyOps (New α n) ops)).Nodup ∧
     (∀ a, a ∈ OrderedList (applyOps (New α n) ops) ↔
        a ∈ applyOps (New α n) ops)) ∧
    (∀ s : Finset String, SetString s = Cogito.fmtList (OrderedList s)) :=
  ⟨⟨Finset.sort_sorted_lt _, Finset.sort_nodup _ _, fun _ => Finset.mem_sort _⟩,
   ⟨Finset.sort_sorted_lt _, Finset.sort_nodup _ _, fun _ => Finset.mem_sort _⟩,
   fun _ => rfl⟩

end Sets
